import Mathlib

/-!
Verification development for the Hexis agent runtime (Python sources under
`src/`).  The Python code is shallowly embedded: pure functions become Lean
functions, database rows and filesystem contents become explicit values, and
external effects (LLM calls, `json.loads`, `os.path` operations, timestamps)
become explicit parameters.  Machine integers are modelled as `Int`/`Nat`
(Python integers are unbounded, so no wrap-around is needed).
-/

namespace Hexis

/-! ## JSON values

Model of the Python JSON data that flows through the runtime
(`dict`/`list`/`str`/`int`/`bool`/`None`).  Numbers are restricted to `Int`
because every number the embedded code reads or writes is an integer
(`version`, energy costs); floats never reach the embedded paths. -/

inductive Json where
  | null : Json
  | bool (b : Bool) : Json
  | num (n : Int) : Json
  | str (s : String) : Json
  | arr (xs : List Json) : Json
  | obj (fields : List (String × Json)) : Json

/-- First-match lookup in a JSON object's field list (Python `dict` access;
`to_dict` outputs have unique keys). -/
def jlookup : List (String × Json) → String → Option Json
  | [], _ => none
  | e :: rest, k => if e.1 = k then some e.2 else jlookup rest k

/-- Python truthiness of a JSON value (`if data.get(k):`). -/
def jtruthy : Json → Bool
  | .null => false
  | .bool b => b
  | .num n => decide (n ≠ 0)
  | .str s => decide (s ≠ "")
  | .arr xs => !xs.isEmpty
  | .obj fs => !fs.isEmpty

/-- Checks whether a JSON value is an object (`isinstance(parsed, dict)`). -/
def Json.isObj : Json → Bool
  | .obj _ => true
  | _ => false

def asStr : Json → Except String String
  | .str s => .ok s
  | _ => .error "expected string"

def asInt : Json → Except String Int
  | .num n => .ok n
  | _ => .error "expected integer"

def asBool : Json → Except String Bool
  | .bool b => .ok b
  | _ => .error "expected boolean"

def asArr : Json → Except String (List Json)
  | .arr xs => .ok xs
  | _ => .error "expected array"

def asObj : Json → Except String (List (String × Json))
  | .obj fs => .ok fs
  | _ => .error "expected object"

/-- Mandatory dictionary access `data[k]` (raises `KeyError` when absent). -/
def reqField (fs : List (String × Json)) (k : String) : Except String Json :=
  match jlookup fs k with
  | some v => .ok v
  | none => .error ("KeyError: " ++ k)

/-! ## Consent certificates (`src/core/consent.py`)

`datetime` objects are modelled by their ISO-8601 rendering: the only
operations the consent code performs on them are `isoformat()` and
`datetime.fromisoformat(...)`, and `isoformat()` of a real datetime is never
the empty string (recorded as the invariant `iso_ne`).  `fromisoformat` is
modelled as succeeding exactly on non-empty strings; the embedded claims never
depend on rejecting a malformed non-empty timestamp. -/

structure DateTime where
  iso : String
  iso_ne : iso ≠ ""

/-- Models `datetime.fromisoformat` (raises on the empty string). -/
def parseDT (s : String) : Except String DateTime :=
  if h : s = "" then .error "Invalid isoformat string" else .ok ⟨s, h⟩

/-- Embeds `ModelInfo` from `src/core/consent.py`. -/
structure ModelInfo where
  provider : String
  model_id : String
  display_name : String

def ModelInfo.to_dict (m : ModelInfo) : Json :=
  .obj [("provider", .str m.provider),
        ("model_id", .str m.model_id),
        ("display_name", .str m.display_name)]

def ModelInfo.from_dict (j : Json) : Except String ModelInfo := do
  let fs ← asObj j
  let p ← reqField fs "provider" >>= asStr
  let mid ← reqField fs "model_id" >>= asStr
  let dn ← reqField fs "display_name" >>= asStr
  pure ⟨p, mid, dn⟩

/-- Embeds `ConsentCertificate` from `src/core/consent.py`.  `signature` and
`initial_memories` are opaque JSON payloads, exactly as in the dataclass. -/
structure ConsentCertificate where
  version : Int
  model : ModelInfo
  decision : String
  timestamp : DateTime
  signature : Json
  initial_memories : List Json
  consent_text_hash : String
  revoked : Bool := false
  revoked_at : Option DateTime := none
  revocation_reason : Option String := none

def ConsentCertificate.to_dict (c : ConsentCertificate) : Json :=
  .obj [("version", .num c.version),
        ("model", c.model.to_dict),
        ("decision", .str c.decision),
        ("timestamp", .str c.timestamp.iso),
        ("signature", c.signature),
        ("initial_memories", .arr c.initial_memories),
        ("consent_text_hash", .str c.consent_text_hash),
        ("revoked", .bool c.revoked),
        ("revoked_at", match c.revoked_at with
                       | some d => .str d.iso
                       | none => .null),
        ("revocation_reason", match c.revocation_reason with
                              | some s => .str s
                              | none => .null)]

def ConsentCertificate.from_dict (j : Json) : Except String ConsentCertificate := do
  let fs ← asObj j
  let version ← reqField fs "version" >>= asInt
  let model ← reqField fs "model" >>= ModelInfo.from_dict
  let decision ← reqField fs "decision" >>= asStr
  let tsRaw ← reqField fs "timestamp" >>= asStr
  let timestamp ← parseDT tsRaw
  let signature ← reqField fs "signature"
  let initial_memories ← reqField fs "initial_memories" >>= asArr
  let cth ← reqField fs "consent_text_hash" >>= asStr
  let revoked ← match jlookup fs "revoked" with
    | none => pure false
    | some v => asBool v
  let revoked_at ← match jlookup fs "revoked_at" with
    | none => pure none
    | some v =>
        if jtruthy v then do
          let s ← asStr v
          let d ← parseDT s
          pure (some d)
        else pure none
  let revocation_reason ← match jlookup fs "revocation_reason" with
    | none => pure none
    | some .null => pure none
    | some v => (asStr v).map some
  pure ⟨version, model, decision, timestamp, signature, initial_memories, cth,
        revoked, revoked_at, revocation_reason⟩

/-- Embeds `ConsentCertificate.is_valid`: accepted and not revoked. -/
def ConsentCertificate.is_valid (c : ConsentCertificate) : Bool :=
  c.decision == "accept" && !c.revoked

/-! ## Consent manager (`ConsentManager` in `src/core/consent.py`)

The consents directory is a list of `(filename, raw file text)` pairs;
`json.loads` is an explicit parameter `loads` (returning `none` where Python
raises `JSONDecodeError`). -/

structure ConsentStore where
  files : List (String × String)

/-- Python's `str` comparison (code-point lexicographic) on character
lists. -/
def charListLe : List Char → List Char → Bool
  | [], _ => true
  | _ :: _, [] => false
  | a :: as, b :: bs =>
      if a < b then true else if b < a then false else charListLe as bs

/-- Python's `<=` on strings (used by `sorted` over certificate
filenames). -/
def strLe (a b : String) : Bool := charListLe a.toList b.toList

/-- Result of `self.CONSENTS_DIR.glob(f"{pre}*.json")` on one filename:
the name is `pre ++ mid ++ ".json"` for some (possibly empty) `mid`. -/
def globMatch (pre name : String) : Bool :=
  pre.toList.isPrefixOf name.toList && ".json".toList.isSuffixOf name.toList &&
    decide (pre.length + 5 ≤ name.length)

/-- The certificate files matching `"{provider}--{model_id}--*.json"`, in
directory order. -/
def matchingCerts (store : ConsentStore) (provider model_id : String) :
    List (String × String) :=
  store.files.filter (fun f => globMatch (provider ++ "--" ++ model_id ++ "--") f.1)

/-- Embeds `ConsentManager._find_latest_certificate`: sort matches in reverse
lexicographic filename order and take the first.  Python's `sorted(...,
reverse=True)` is a stable descending sort, modelled by a stable insertion
sort under the reversed order. -/
def find_latest_certificate (store : ConsentStore) (provider model_id : String) :
    Option (String × String) :=
  ((matchingCerts store provider model_id).insertionSort
    (fun a b => strLe b.1 a.1 = true)).head?

/-- Embeds `ConsentManager.get_consent`: read and parse the latest certificate.
Parse failures (`json.loads` or `from_dict`) propagate as errors, exactly as
the Python method lets the exceptions escape. -/
def get_consent (loads : String → Option Json) (store : ConsentStore)
    (provider model_id : String) : Except String (Option ConsentCertificate) :=
  match find_latest_certificate store provider model_id with
  | none => .ok none
  | some nt =>
      match loads nt.2 with
      | none => .error "json.JSONDecodeError"
      | some j =>
          match ConsentCertificate.from_dict j with
          | .error e => .error e
          | .ok c => .ok (some c)

/-- Embeds `ConsentManager.has_valid_consent`. -/
def has_valid_consent (loads : String → Option Json) (store : ConsentStore)
    (provider model_id : String) : Except String Bool :=
  match get_consent loads store provider model_id with
  | .error e => .error e
  | .ok none => .ok false
  | .ok (some c) => .ok c.is_valid

/-! ## LLM JSON parsing (`src/core/llm_json.py`)

`json.loads` is the explicit parameter `loads` (`none` where Python raises). -/

/-- Index of the last `'\x7d'` in a character list, if any. -/
def lastCloseIdx (cs : List Char) : Option Nat :=
  match cs.reverse.findIdx? (· = '\x7d') with
  | none => none
  | some k => some (cs.length - 1 - k)

/-- The substring matched by `re.search(r"\x7b[\s\S]*\x7d", raw)`: from the
first opening brace to the last closing brace, provided the closing brace
comes strictly after the opening one. -/
def extractBraces (raw : String) : Option String :=
  let cs := raw.toList
  match cs.findIdx? (· = '\x7b') with
  | none => none
  | some i =>
      match lastCloseIdx cs with
      | none => none
      | some j =>
          if i < j then some (String.mk ((cs.drop i).take (j - i + 1))) else none

/-- The regex-rescue arm of `parse_json_response`: parse the braced substring
if there is one and it yields an object, else return the fallback. -/
def braceRescue (loads : String → Option Json) (raw : String)
    (fallback : Json) : Json :=
  match extractBraces raw with
  | none => fallback
  | some snippet =>
      match loads snippet with
      | some (.obj fs) => .obj fs
      | _ => fallback

/-- Embeds `parse_json_response` from `src/core/llm_json.py`: empty input falls back;
a direct parse is used only when it yields an object; otherwise the braced
substring is tried; otherwise the fallback (a fresh copy, value-equal). -/
def parse_json_response (loads : String → Option Json) (raw : String)
    (fallback : Json) : Json :=
  if raw = "" then fallback
  else
    match loads raw with
    | some (.obj fs) => .obj fs
    | _ => braceRescue loads raw fallback

/-! ## Heartbeat-decision think call
(`ExternalCallProcessor._process_heartbeat_decision_call` in
`src/services/external_calls.py`)

The LLM transport (`chat_completion`) is external; `raw` is the content string
it returned (`response.get("content", "") or ""`).  Prompt construction does
not influence the returned payload and is not modelled. -/

/-- The declared fallback decision built inside
`_process_heartbeat_decision_call`. -/
def heartbeatDecisionFallback : Json :=
  .obj [("reasoning", .str "(no decision available)"),
        ("actions", .arr [.obj [("action", .str "rest"), ("params", .obj [])]]),
        ("goal_changes", .arr [])]

/-- Result payload of `_process_heartbeat_decision_call` (the `kind` field is
the constant `"heartbeat_decision"`). -/
structure HeartbeatDecisionPayload where
  kind : String
  decision : Json
  heartbeat_id : Option String
  raw_response : String

/-- Embeds `_process_heartbeat_decision_call`, post-LLM: parse the raw content with
the declared fallback (`chat_json` delegates to `parse_json_response`). -/
def process_heartbeat_decision_call (loads : String → Option Json)
    (raw : String) (heartbeat_id : Option String) : HeartbeatDecisionPayload :=
  { kind := "heartbeat_decision"
  , decision := parse_json_response loads raw heartbeatDecisionFallback
  , heartbeat_id := heartbeat_id
  , raw_response := raw }

/-! ## External-call broker (`fail_call` in `src/core/external_calls.py`)

One row of the `external_calls` table, restricted to the columns `fail_call`
touches.  `started_at`/`completed_at` timestamps are abstract strings;
`CURRENT_TIMESTAMP` is the explicit parameter `now`. -/

inductive CallStatus where
  | pending
  | processing
  | complete
  | failed
deriving DecidableEq

structure ExternalCall where
  status : CallStatus
  retry_count : Nat
  started_at : Option String
  completed_at : Option String
  error_message : Option String
deriving DecidableEq

/-- Embeds `fail_call` from `src/core/external_calls.py`: the single-row effect of
its UPDATE statements on the targeted call. -/
def fail_call (now : String) (c : ExternalCall) (error : String)
    (max_retries : Nat) (retry : Bool) : ExternalCall :=
  if retry then
    { c with
      status := if c.retry_count < max_retries then .pending else .failed
      error_message := some error
      retry_count := c.retry_count + 1
      started_at := none }
  else
    { c with
      status := .failed
      error_message := some error
      completed_at := some now }

/-! ## Instance deletion (`delete_instance` in `src/core/instance_api.py`)

The durable store is abstracted to the two gate predicates the function reads
(`is_agent_terminated()`, `is_agent_configured()`), and the LLM-backed
termination review to its outcome: `.ok review` when
`_request_termination_review` returns a parsed review, `.error msg` when it
raises.  The trace records which destructive effects ran. -/

/-- A termination review document (`{confirm, reasoning, last_will,
farewells[], alternative_actions[]}`; the fallback review also carries
`reason`).  `review.get("confirm") is True` is modelled by the `confirm`
boolean. -/
structure TerminationReview where
  confirm : Bool
  reasoning : String
  last_will : String
  farewells : List Json
  alternative_actions : List Json
  reason : String

/-- The fallback review constructed when `_request_termination_review`
raises. -/
def fallbackReview (excMsg reason : String) : TerminationReview :=
  { confirm := false
  , reasoning := "Termination review failed: " ++ excMsg
  , last_will := "Unable to provide a last will due to system error."
  , farewells := []
  , alternative_actions := []
  , reason := reason }

/-- The two store predicates `delete_instance` consults. -/
structure StoreGate where
  terminated : Bool
  configured : Bool

inductive DeleteErr where
  | instanceNotFound
  | agentDeletionRefused (review : TerminationReview)

/-- Observable trace of one `delete_instance` call: its outcome plus which
side effects were invoked. -/
structure DeleteTrace where
  outcome : Except DeleteErr Unit
  dropDatabaseCalled : Bool
  registryRemoveCalled : Bool
  terminateAgentCalled : Bool
  reviewRecorded : Bool

/-- Embeds `delete_instance` from `src/core/instance_api.py`.  `instanceFound` is
whether the registry has the instance; `reviewCall` is the outcome of
`_request_termination_review`. -/
def delete_instance (instanceFound : Bool) (st : StoreGate)
    (reviewCall : Except String TerminationReview)
    (force require_permission : Bool) (reason : String) : DeleteTrace :=
  if !instanceFound then
    { outcome := .error .instanceNotFound
    , dropDatabaseCalled := false
    , registryRemoveCalled := false
    , terminateAgentCalled := false
    , reviewRecorded := false }
  else if require_permission && (!st.terminated && st.configured) then
    match reviewCall with
    | .error e =>
        let rv := fallbackReview e reason
        if !force then
          { outcome := .error (.agentDeletionRefused rv)
          , dropDatabaseCalled := false
          , registryRemoveCalled := false
          , terminateAgentCalled := false
          , reviewRecorded := false }
        else
          { outcome := .ok ()
          , dropDatabaseCalled := true
          , registryRemoveCalled := true
          , terminateAgentCalled := false
          , reviewRecorded := true }
    | .ok rv =>
        if rv.confirm then
          { outcome := .ok ()
          , dropDatabaseCalled := true
          , registryRemoveCalled := true
          , terminateAgentCalled := true
          , reviewRecorded := true }
        else if !force then
          { outcome := .error (.agentDeletionRefused rv)
          , dropDatabaseCalled := false
          , registryRemoveCalled := false
          , terminateAgentCalled := false
          , reviewRecorded := true }
        else
          { outcome := .ok ()
          , dropDatabaseCalled := true
          , registryRemoveCalled := true
          , terminateAgentCalled := false
          , reviewRecorded := true }
  else
    { outcome := .ok ()
    , dropDatabaseCalled := true
    , registryRemoveCalled := true
    , terminateAgentCalled := false
    , reviewRecorded := false }

/-! ## Heartbeat worker loop (`HeartbeatWorker.run` in
`src/services/worker_service.py`)

Each iteration of the `while self.running` loop first checks
`_is_agent_terminated()`; that is the only condition under which the loop
`break`s.  No other state—in particular no consent state—is consulted before
`_run_heartbeat_if_due()` polls for work and services external calls. -/

inductive WorkerStep where
  | exitLoop
  | runHeartbeatIfDue
deriving DecidableEq

/-- The gating decision of one iteration of `HeartbeatWorker.run`. -/
def heartbeatWorkerLoopStep (agentTerminated : Bool) : WorkerStep :=
  if agentTerminated then .exitLoop else .runHeartbeatIfDue

/-! ## Tools system: base types (`src/core/tools/base.py`) -/

inductive ToolContextK where
  | heartbeat
  | chat
  | mcp
deriving DecidableEq

inductive ToolErrorType where
  | unknown_tool
  | invalid_params
  | execution_failed
  | timeout
  | cancelled
  | context_denied
  | insufficient_energy
  | boundary_violation
  | approval_required
  | disabled
  | file_not_found
  | directory_not_found
  | permission_denied
  | file_too_large
  | path_not_allowed
  | shell_disabled
  | shell_timeout
  | shell_exit_error
  | network_error
  | http_error
  | fetch_timeout
  | missing_config
  | missing_api_key
  | missing_dependency
  | auth_failed
  | rate_limited
deriving DecidableEq

/-- The `.value` string of a `ToolErrorType` member (used as
`errors_by_type` key). -/
def ToolErrorType.value : ToolErrorType → String
  | .unknown_tool => "unknown_tool"
  | .invalid_params => "invalid_params"
  | .execution_failed => "execution_failed"
  | .timeout => "timeout"
  | .cancelled => "cancelled"
  | .context_denied => "context_denied"
  | .insufficient_energy => "insufficient_energy"
  | .boundary_violation => "boundary_violation"
  | .approval_required => "approval_required"
  | .disabled => "disabled"
  | .file_not_found => "file_not_found"
  | .directory_not_found => "directory_not_found"
  | .permission_denied => "permission_denied"
  | .file_too_large => "file_too_large"
  | .path_not_allowed => "path_not_allowed"
  | .shell_disabled => "shell_disabled"
  | .shell_timeout => "shell_timeout"
  | .shell_exit_error => "shell_exit_error"
  | .network_error => "network_error"
  | .http_error => "http_error"
  | .fetch_timeout => "fetch_timeout"
  | .missing_config => "missing_config"
  | .missing_api_key => "missing_api_key"
  | .missing_dependency => "missing_dependency"
  | .auth_failed => "auth_failed"
  | .rate_limited => "rate_limited"

/-- Embeds `ToolSpec` from `src/core/tools/base.py`.  `category` is the category's
`.value` string; `parameters` is the JSON schema (opaque here). -/
structure ToolSpec where
  name : String
  description : String
  parameters : Json
  category : String
  energy_cost : Nat := 1
  requires_approval : Bool := false
  is_read_only : Bool := true
  supports_parallel : Bool := true
  allowed_contexts : List ToolContextK :=
    [ToolContextK.heartbeat, ToolContextK.chat, ToolContextK.mcp]

/-- Embeds `ToolResult` from `src/core/tools/base.py`.  The wall-clock
`duration_seconds` field (a Python float stamped by `ToolInvocation.complete`)
and the free-form `metadata` dict are not modelled; no embedded claim reads
them. -/
structure ToolResult where
  success : Bool
  output : Option Json
  display_output : Option String := none
  error : Option String := none
  error_type : Option ToolErrorType := none
  energy_spent : Nat := 0

/-- Embeds `ToolResult.error_result`. -/
def ToolResult.error_result (error : String)
    (error_type : ToolErrorType := .execution_failed) : ToolResult :=
  { success := false, output := none, error := some error,
    error_type := some error_type }

/-- Embeds `ToolExecutionContext` from `src/core/tools/base.py` (minus the back
`registry` reference).  `energy_available` is an `Int` because the Python
field is an unbounded int that sequential batch execution may drive
negative. -/
structure ToolExecutionContext where
  tool_context : ToolContextK
  call_id : String
  heartbeat_id : Option String := none
  session_id : Option String := none
  energy_available : Option Int := none
  workspace_path : Option String := none
  allow_network : Bool := true
  allow_shell : Bool := false
  allow_file_write : Bool := false
  allow_file_read : Bool := true

/-! ## Path restriction (`resolve_path` / `is_path_allowed` in
`src/core/tools/base.py`)

`os.path.normpath`, `os.path.join` and `os.path.isabs` are host-OS
operations, abstracted into an `OsPathModel`. -/

structure OsPathModel where
  normpath : String → String
  joinPath : String → String → String
  isAbs : String → Bool

/-- Embeds `ToolExecutionContext.resolve_path` (`if self.workspace_path:` is Python
truthiness: `none` and `""` both skip the join). -/
def resolve_path (os : OsPathModel) (ctx : ToolExecutionContext)
    (path : String) : String :=
  match ctx.workspace_path with
  | some w =>
      if w ≠ "" && !os.isAbs path then os.normpath (os.joinPath w path)
      else os.normpath path
  | none => os.normpath path

/-- Embeds `ToolExecutionContext.is_path_allowed`: with a falsy `workspace_path`
there is no restriction. -/
def is_path_allowed (os : OsPathModel) (ctx : ToolExecutionContext)
    (path : String) : Bool :=
  match ctx.workspace_path with
  | none => true
  | some w =>
      if w = "" then true
      else (resolve_path os ctx path).startsWith (os.normpath w)

/-! ## `read_file` entry checks (`ReadFileHandler.execute` in
`src/core/tools/filesystem.py`)

Only the pre-filesystem gate is embedded: everything after the path check
touches the host filesystem. -/

inductive ReadFileGate where
  | deniedFileRead
  | deniedPath
  | proceedsToFilesystem (resolved : String)
deriving DecidableEq

/-- The gating prefix of `ReadFileHandler.execute`. -/
def read_file_gate (os : OsPathModel) (ctx : ToolExecutionContext)
    (path : String) : ReadFileGate :=
  if !ctx.allow_file_read then .deniedFileRead
  else
    let resolved := resolve_path os ctx path
    if !is_path_allowed os ctx resolved then .deniedPath
    else .proceedsToFilesystem resolved

/-! ## Tools configuration (`src/core/tools/config.py`) -/

/-- Embeds `ContextOverrides` from `src/core/tools/config.py`. -/
structure ContextOverrides where
  max_energy_per_tool : Option Nat := none
  disabled : List String := []
  enabled : List String := []
  allow_all : Bool := false
  allow_shell : Bool := false
  allow_file_write : Bool := false

/-- Embeds `ToolsConfig` from `src/core/tools/config.py`, restricted to the fields
the execution pipeline reads (`mcp_servers` and `api_keys` only feed tool
construction and key resolution). -/
structure ToolsConfig where
  enabled : Option (List String) := none
  disabled : List String := []
  disabled_categories : List String := []
  costs : List (String × Nat) := []
  context_overrides : List (ToolContextK × ContextOverrides) := []
  workspace_path : Option String := none

/-- Embeds `ToolsConfig.is_tool_enabled`. -/
def ToolsConfig.is_tool_enabled (cfg : ToolsConfig)
    (tool_name category : String) : Bool :=
  if cfg.disabled.contains tool_name then false
  else if cfg.disabled_categories.contains category then false
  else
    match cfg.enabled with
    | some l => l.contains tool_name
    | none => true

/-- Embeds `ToolsConfig.is_tool_enabled_for_context` (`if ctx_override.enabled and
tool_name not in ...` uses list truthiness: an empty `enabled` list imposes
no allowlist). -/
def ToolsConfig.is_tool_enabled_for_context (cfg : ToolsConfig)
    (tool_name category : String) (context : ToolContextK) : Bool :=
  if !cfg.is_tool_enabled tool_name category then false
  else
    match cfg.context_overrides.lookup context with
    | none => true
    | some o =>
        if o.allow_all then true
        else if o.disabled.contains tool_name then false
        else if !o.enabled.isEmpty && !o.enabled.contains tool_name then false
        else true

/-- Embeds `ToolsConfig.get_energy_cost`. -/
def ToolsConfig.get_energy_cost (cfg : ToolsConfig) (tool_name : String)
    (default_cost : Nat) : Nat :=
  (cfg.costs.lookup tool_name).getD default_cost

/-- Embeds `ToolsConfig.get_context_overrides`. -/
def ToolsConfig.get_context_overrides (cfg : ToolsConfig)
    (context : ToolContextK) : ContextOverrides :=
  (cfg.context_overrides.lookup context).getD {}

/-! ## Policy pipeline (`src/core/tools/policy.py`)

The `memories` table rows the boundary queries can see are modelled by the
columns/metadata keys those queries read.  The approvals config row
(`key='tools.approvals'`, a JSON string array) is the list `approvals`. -/

/-- One `memories` row as seen by `_check_boundaries`: its `type`, `status`
and `content` columns plus the `category`, `restricts_tools` and
`restricts_categories` metadata keys. -/
structure MemoryRow where
  mtype : String
  content : String
  category : String
  restricts_tools : List String := []
  restricts_categories : List String := []
  status : String

/-- Row predicate of the first `_check_boundaries` query (active worldview
boundary naming the tool in `restricts_tools`). -/
def boundaryRowForTool (m : MemoryRow) (tool_name : String) : Bool :=
  m.mtype == "worldview" && m.category == "boundary" &&
    m.restricts_tools.contains tool_name && m.status == "active"

/-- Row predicate of the second `_check_boundaries` query (active worldview
boundary naming the category in `restricts_categories`). -/
def boundaryRowForCategory (m : MemoryRow) (category : String) : Bool :=
  m.mtype == "worldview" && m.category == "boundary" &&
    m.restricts_categories.contains category && m.status == "active"

inductive PolicyCheckResult where
  | allow
  | deny (reason : String) (error_type : ToolErrorType)
deriving DecidableEq

/-- Embeds `ToolPolicy._check_enabled`. -/
def check_enabled (spec : ToolSpec) (context : ToolContextK)
    (cfg : ToolsConfig) : PolicyCheckResult :=
  if !cfg.is_tool_enabled_for_context spec.name spec.category context then
    .deny ("Tool '" ++ spec.name ++ "' is disabled") .disabled
  else .allow

/-- The `ToolContext.value` strings (used in denial messages). -/
def ToolContextK.value : ToolContextK → String
  | .heartbeat => "heartbeat"
  | .chat => "chat"
  | .mcp => "mcp"

/-- Embeds `ToolPolicy._check_context`. -/
def check_context (spec : ToolSpec) (context : ToolContextK) :
    PolicyCheckResult :=
  if !spec.allowed_contexts.contains context then
    .deny ("Tool '" ++ spec.name ++ "' not allowed in " ++ context.value
           ++ " context") .context_denied
  else .allow

/-- Embeds `ToolPolicy._check_energy` (heartbeat only; `None` energy allows). -/
def check_energy (spec : ToolSpec) (cfg : ToolsConfig)
    (energy_available : Option Int) : PolicyCheckResult :=
  match energy_available with
  | none => .allow
  | some avail =>
      let cost := cfg.get_energy_cost spec.name spec.energy_cost
      match (cfg.get_context_overrides ToolContextK.heartbeat).max_energy_per_tool with
      | some mx =>
          if cost > mx then
            .deny ("Tool '" ++ spec.name ++ "' cost (" ++ toString cost
                   ++ ") exceeds max per tool (" ++ toString mx ++ ")")
              .insufficient_energy
          else if (cost : Int) > avail then
            .deny ("Insufficient energy: need " ++ toString cost ++ ", have "
                   ++ toString avail) .insufficient_energy
          else .allow
      | none =>
          if (cost : Int) > avail then
            .deny ("Insufficient energy: need " ++ toString cost ++ ", have "
                   ++ toString avail) .insufficient_energy
          else .allow

/-- Category half of `ToolPolicy._check_boundaries`: fetch the content of one
active category-restricting boundary row and deny only when that content is
truthy (`if boundary:` — an empty string, like a missing row, falls
through). -/
def check_boundaries_category (db : List MemoryRow) (spec : ToolSpec) :
    PolicyCheckResult :=
  match db.find? (fun m => boundaryRowForCategory m spec.category) with
  | some m =>
      if m.content = "" then .allow
      else
        .deny ("Boundary restriction on category '" ++ spec.category
               ++ "': " ++ m.content) .boundary_violation
  | none => .allow

/-- Embeds `ToolPolicy._check_boundaries`: the first query fetches the
content of one active tool-restricting boundary row; `if boundary:` makes the
denial fire only when that content is truthy (non-empty), and otherwise falls
through to the category query, which is guarded the same way.  The SQL
`LIMIT 1` without `ORDER BY` returns an unspecified matching row; the
embedding picks the first in row order. -/
def check_boundaries (db : List MemoryRow) (spec : ToolSpec) :
    PolicyCheckResult :=
  match db.find? (fun m => boundaryRowForTool m spec.name) with
  | some m =>
      if m.content = "" then check_boundaries_category db spec
      else .deny ("Boundary restriction: " ++ m.content) .boundary_violation
  | none => check_boundaries_category db spec

/-- Embeds `ToolPolicy._check_approval`. -/
def check_approval (spec : ToolSpec) (context : ToolContextK)
    (approvals : List String) : PolicyCheckResult :=
  if !spec.requires_approval then .allow
  else if context = ToolContextK.chat then .allow
  else if !approvals.contains spec.name then
    .deny ("Tool '" ++ spec.name ++ "' requires approval for autonomous use")
      .approval_required
  else .allow

/-- Embeds `ToolPolicy.check_all`: the five checks in order, denying at the first
failure (the energy check only runs in heartbeat context). -/
def check_all (spec : ToolSpec) (context : ToolContextK) (cfg : ToolsConfig)
    (db : List MemoryRow) (approvals : List String)
    (energy_available : Option Int) : PolicyCheckResult :=
  match check_enabled spec context cfg with
  | .deny r e => .deny r e
  | .allow =>
  match check_context spec context with
  | .deny r e => .deny r e
  | .allow =>
  match (if context = ToolContextK.heartbeat
         then check_energy spec cfg energy_available
         else .allow) with
  | .deny r e => .deny r e
  | .allow =>
  match check_boundaries db spec with
  | .deny r e => .deny r e
  | .allow =>
  match check_approval spec context approvals with
  | .deny r e => .deny r e
  | .allow => .allow

/-! ## Tool registry (`src/core/tools/registry.py`)

A handler's `execute` coroutine is abstracted to `run : Json → ExecOutcome`:
`.ok r` when it returns `r`, and the three exceptional arms of the
`try/except` in `ToolRegistry.execute`. -/

inductive ExecOutcome where
  | ok (r : ToolResult)
  | timeout
  | cancelled
  | raised (msg : String)

structure ToolHandler where
  spec : ToolSpec
  validateErrors : Json → List String
  run : Json → ExecOutcome

/-- The registry's two handler maps (`_handlers`, then `_mcp_handlers`). -/
structure ToolRegistry where
  handlers : List (String × ToolHandler)
  mcp_handlers : List (String × ToolHandler) := []

/-- Embeds `ToolRegistry.get`. -/
def ToolRegistry.get (r : ToolRegistry) (name : String) : Option ToolHandler :=
  match r.handlers.lookup name with
  | some h => some h
  | none => r.mcp_handlers.lookup name

/-- Result of one `ToolRegistry.execute`, plus whether the handler body was
reached (`handler.execute` awaited). -/
structure ExecReturn where
  result : ToolResult
  handlerRan : Bool

/-- Embeds `ToolRegistry.execute`: handler lookup, policy pipeline, argument
validation, handler execution with the timeout/cancel/exception arms, then
the config-resolved energy charge on the handler's result. -/
def ToolRegistry.execute (r : ToolRegistry) (db : List MemoryRow)
    (approvals : List String) (cfg : ToolsConfig) (tool_name : String)
    (args : Json) (ctx : ToolExecutionContext) : ExecReturn :=
  match r.get tool_name with
  | none =>
      { result := ToolResult.error_result ("Unknown tool: " ++ tool_name)
          .unknown_tool
      , handlerRan := false }
  | some handler =>
      let spec := handler.spec
      match check_all spec ctx.tool_context cfg db approvals
          ctx.energy_available with
      | .deny reason et =>
          { result := ToolResult.error_result reason et, handlerRan := false }
      | .allow =>
          if !(handler.validateErrors args).isEmpty then
            { result := ToolResult.error_result
                ("Validation errors: " ++
                  String.intercalate ", " (handler.validateErrors args))
                .invalid_params
            , handlerRan := false }
          else
            match handler.run args with
            | .ok res =>
                { result := { res with
                    energy_spent := cfg.get_energy_cost tool_name
                      spec.energy_cost }
                , handlerRan := true }
            | .timeout =>
                { result := ToolResult.error_result
                    "Tool execution timed out after 120 seconds" .timeout
                , handlerRan := true }
            | .cancelled =>
                { result := ToolResult.error_result
                    "Tool execution was cancelled" .cancelled
                , handlerRan := true }
            | .raised msg =>
                { result := ToolResult.error_result msg .execution_failed
                , handlerRan := true }

/-- The per-call context `execute_batch` builds: a copy of the shared context
with a fresh `call_id` (`str(uuid.uuid4())`, supplied by `callIds` indexed by
the call's position). -/
def batchCtx (ctx : ToolExecutionContext) (cid : String) :
    ToolExecutionContext :=
  { ctx with call_id := cid }

/-- Sequential branch of `ToolRegistry.execute_batch` (`parallel=False`):
runs calls in order and decrements the shared `energy_available` by each
result's `energy_spent`. -/
def execute_batch_seq (r : ToolRegistry) (db : List MemoryRow)
    (approvals : List String) (cfg : ToolsConfig) (callIds : Nat → String) :
    Nat → ToolExecutionContext → List (String × Json) → List ToolResult
  | _, _, [] => []
  | i, ctx, (n, a) :: rest =>
      let res := (r.execute db approvals cfg n a (batchCtx ctx (callIds i))).result
      let ctx' :=
        match ctx.energy_available with
        | some e => { ctx with energy_available := some (e - (res.energy_spent : Int)) }
        | none => ctx
      res :: execute_batch_seq r db approvals cfg callIds (i + 1) ctx' rest

/-- Whether `execute_batch` routes a call to the parallel-safe bucket. -/
def parallelSafe (r : ToolRegistry) (c : Nat × (String × Json)) : Bool :=
  match r.get c.2.1 with
  | some h => h.spec.supports_parallel
  | none => false

/-- Embeds `ToolRegistry.execute_batch` with `parallel=True`: partition the
enumerated calls into parallel-safe and sequential buckets, execute each call
with a fresh `call_id` and the shared context (the unchanged
`energy_available` snapshot — the `parallel=True` path never writes it back),
then sort the `(index, result)` pairs by index.  `asyncio.gather` preserves
the order of its result list, so the parallel bucket is a `map`. -/
def execute_batch_par (r : ToolRegistry) (db : List MemoryRow)
    (approvals : List String) (cfg : ToolsConfig)
    (calls : List (String × Json)) (ctx : ToolExecutionContext)
    (callIds : Nat → String) : List ToolResult :=
  let tagged := calls.enum
  let par := tagged.filter (parallelSafe r)
  let seq := tagged.filter (fun c => !parallelSafe r c)
  let runOne : Nat × (String × Json) → Nat × ToolResult := fun c =>
    (c.1, (r.execute db approvals cfg c.2.1 c.2.2
            (batchCtx ctx (callIds c.1))).result)
  let results := par.map runOne ++ seq.map runOne
  (results.insertionSort (fun a b => a.1 ≤ b.1)).map (·.2)

/-- Embeds `ToolRegistry.execute_batch`. -/
def ToolRegistry.execute_batch (r : ToolRegistry) (db : List MemoryRow)
    (approvals : List String) (cfg : ToolsConfig)
    (calls : List (String × Json)) (ctx : ToolExecutionContext)
    (parallel : Bool) (callIds : Nat → String) : List ToolResult :=
  if !parallel then execute_batch_seq r db approvals cfg callIds 0 ctx calls
  else execute_batch_par r db approvals cfg calls ctx callIds

/-- Modelled from the spec: the batch-execution contract of §4.C as the claim
states it — sequential (non-parallel-safe) calls run strictly in original
order, "each decrementing a shared `energy_available` between calls", while
parallel-safe calls each see the starting snapshot; results are re-sorted
into original order.  Used only to compare against the code's
`execute_batch`. -/
def execute_batch_par_specC6 (r : ToolRegistry) (db : List MemoryRow)
    (approvals : List String) (cfg : ToolsConfig)
    (calls : List (String × Json)) (ctx : ToolExecutionContext)
    (callIds : Nat → String) : List ToolResult :=
  let tagged := calls.enum
  let par := tagged.filter (parallelSafe r)
  let seq := tagged.filter (fun c => !parallelSafe r c)
  let runOne : Nat × (String × Json) → Nat × ToolResult := fun c =>
    (c.1, (r.execute db approvals cfg c.2.1 c.2.2
            (batchCtx ctx (callIds c.1))).result)
  let seqRun : ToolExecutionContext → List (Nat × (String × Json)) →
      List (Nat × ToolResult) :=
    fun c0 l => (l.foldl
      (fun (acc : List (Nat × ToolResult) × ToolExecutionContext) c =>
        let res := (r.execute db approvals cfg c.2.1 c.2.2
                     (batchCtx acc.2 (callIds c.1))).result
        let nextCtx :=
          match acc.2.energy_available with
          | some e => { acc.2 with
              energy_available := some (e - (res.energy_spent : Int)) }
          | none => acc.2
        (acc.1 ++ [(c.1, res)], nextCtx))
      ([], c0)).1
  let results := par.map runOne ++ seqRun ctx seq
  (results.insertionSort (fun a b => a.1 ≤ b.1)).map (·.2)

/-! ## Execution statistics (`ExecutionStats` in `src/core/tools/registry.py`)

The Python counter dicts become association lists; `total_duration` (a float
accumulated from wall-clock durations) is not modelled. -/

/-- The update `d[k] = d.get(k, 0) + 1` on an association list: replace the first
binding of `k`, or append a fresh one. -/
def bumpCount : List (String × Nat) → String → List (String × Nat)
  | [], k => [(k, 1)]
  | e :: rest, k =>
      if e.1 = k then (k, e.2 + 1) :: rest else e :: bumpCount rest k

structure ExecutionStats where
  total_calls : Nat := 0
  total_successes : Nat := 0
  total_failures : Nat := 0
  total_energy_spent : Nat := 0
  calls_by_tool : List (String × Nat) := []
  errors_by_type : List (String × Nat) := []

/-- Embeds `ExecutionStats.record`. -/
def ExecutionStats.record (s : ExecutionStats) (tool_name : String)
    (result : ToolResult) : ExecutionStats :=
  let s := { s with
    total_calls := s.total_calls + 1
    total_energy_spent := s.total_energy_spent + result.energy_spent
    calls_by_tool := bumpCount s.calls_by_tool tool_name }
  if result.success then { s with total_successes := s.total_successes + 1 }
  else
    { s with
      total_failures := s.total_failures + 1
      errors_by_type :=
        match result.error_type with
        | some et => bumpCount s.errors_by_type et.value
        | none => s.errors_by_type }

/-- Sum of the counter values of an association list. -/
def sumCounts (m : List (String × Nat)) : Nat :=
  (m.map (·.2)).sum

/-- The stats invariant of claim C10. -/
def statsInvariant (s : ExecutionStats) : Prop :=
  s.total_calls = s.total_successes + s.total_failures ∧
    sumCounts s.calls_by_tool = s.total_calls

/-! ## Concrete fixtures used by witness and counterexample theorems -/

def demoShellSpec : ToolSpec :=
  { name := "shell", description := "Execute a shell command",
    parameters := .obj [], category := "shell", energy_cost := 5,
    requires_approval := true, is_read_only := false,
    supports_parallel := false,
    allowed_contexts := [ToolContextK.heartbeat, ToolContextK.chat] }

def demoShellHandler : ToolHandler :=
  { spec := demoShellSpec, validateErrors := fun _ => [],
    run := fun _ => .ok { success := true, output := some (.str "ok") } }

def demoShellRegistry : ToolRegistry :=
  { handlers := [("shell", demoShellHandler)] }

def demoBoundaryRow : MemoryRow :=
  { mtype := "worldview", content := "I will not run shell commands.",
    category := "boundary", restricts_tools := ["shell"],
    restricts_categories := [], status := "active" }

def demoHeartbeatCtx : ToolExecutionContext :=
  { tool_context := ToolContextK.heartbeat, call_id := "call-0",
    energy_available := some 10 }

/-- An active boundary row naming `shell` whose `content` is the empty
string — truthiness-falsy, so the source skips its denial. -/
def demoEmptyBoundaryRow : MemoryRow :=
  { mtype := "worldview", content := "",
    category := "boundary", restricts_tools := ["shell"],
    restricts_categories := [], status := "active" }

def demoMsgSpec : ToolSpec :=
  { name := "send_message", description := "Send a message",
    parameters := .obj [], category := "messaging", energy_cost := 3,
    requires_approval := false, is_read_only := false,
    supports_parallel := false }

def demoMsgHandler : ToolHandler :=
  { spec := demoMsgSpec, validateErrors := fun _ => [],
    run := fun _ => .ok { success := true, output := some (.str "sent") } }

def demoMsgRegistry : ToolRegistry :=
  { handlers := [("send_message", demoMsgHandler)] }

def demoBatchCtx : ToolExecutionContext :=
  { tool_context := ToolContextK.heartbeat, call_id := "batch-root",
    energy_available := some 5 }

def demoBatchCalls : List (String × Json) :=
  [("send_message", .obj []), ("send_message", .obj [])]

def demoCallIds : Nat → String := fun i => "call-" ++ toString i

def demoAcceptCertJson : Json :=
  .obj [("version", .num 1),
        ("model", .obj [("provider", .str "anthropic"),
                        ("model_id", .str "claude-3-opus"),
                        ("display_name", .str "Claude 3 Opus")]),
        ("decision", .str "accept"),
        ("timestamp", .str "2024-01-26T09:00:00+00:00"),
        ("signature", .obj [("method", .str "llm_generated"),
                            ("value", .str "ACCEPT"),
                            ("hash_algorithm", .str "sha256")]),
        ("initial_memories", .arr []),
        ("consent_text_hash", .str "sha256:abc"),
        ("revoked", .bool false),
        ("revoked_at", .null),
        ("revocation_reason", .null)]

def demoDeclineCertJson : Json :=
  .obj [("version", .num 1),
        ("model", .obj [("provider", .str "anthropic"),
                        ("model_id", .str "claude-3-opus"),
                        ("display_name", .str "Claude 3 Opus")]),
        ("decision", .str "decline"),
        ("timestamp", .str "2024-01-25T12:00:00+00:00"),
        ("signature", .obj [("method", .str "llm_generated"),
                            ("value", .str "DECLINE"),
                            ("hash_algorithm", .str "sha256")]),
        ("initial_memories", .arr []),
        ("consent_text_hash", .str "sha256:abc"),
        ("revoked", .bool false),
        ("revoked_at", .null),
        ("revocation_reason", .null)]

/-- A concrete stand-in for `json.loads` over the two fixture file texts. -/
def demoLoads : String → Option Json := fun t =>
  if t = "ACCEPT-CERT" then some demoAcceptCertJson
  else if t = "DECLINE-CERT" then some demoDeclineCertJson
  else none

def demoStoreLatestOnly : ConsentStore :=
  ⟨[("anthropic--claude-3-opus--2024-01-26T090000Z.json", "ACCEPT-CERT")]⟩

def demoStoreWithEarlier : ConsentStore :=
  ⟨[("anthropic--claude-3-opus--2024-01-25T120000Z.json", "DECLINE-CERT"),
    ("anthropic--claude-3-opus--2024-01-26T090000Z.json", "ACCEPT-CERT")]⟩

/-! ## Theorems -/

theorem hexis_ok_bind {ε α β : Type} (a : α) (f : α → Except ε β) :
    (Except.ok a >>= f : Except ε β) = f a := rfl

theorem hexis_error_bind {ε α β : Type} (e : ε) (f : α → Except ε β) :
    (Except.error e >>= f : Except ε β) = .error e := rfl

theorem hexis_map_ok {ε α β : Type} (f : α → β) (a : α) :
    (f <$> (Except.ok a : Except ε α)) = .ok (f a) := rfl

theorem hexis_emap_ok {ε α β : Type} (f : α → β) (a : α) :
    Except.map f (Except.ok a : Except ε α) = .ok (f a) := rfl

theorem hexis_pure_ok {ε α : Type} (a : α) :
    (pure a : Except ε α) = .ok a := rfl

set_option maxHeartbeats 2000000 in
/-- C8: For every ConsentCertificate c, `from_dict (to_dict c)` recovers `c`
exactly, including the model sub-record, the optional `revoked_at` timestamp,
and all default fields. -/
theorem C8_consent_certificate_roundtrip (c : ConsentCertificate) :
    ConsentCertificate.from_dict c.to_dict = .ok c := by
  obtain ⟨v, m, d, ts, sg, im, cth, rv, ra, rr⟩ := c
  obtain ⟨mp, mid, mdn⟩ := m
  obtain ⟨tsi, tsne⟩ := ts
  cases ra with
  | none =>
      cases rr with
      | none =>
          simp [ConsentCertificate.from_dict, ConsentCertificate.to_dict,
            ModelInfo.from_dict, ModelInfo.to_dict, asObj, reqField, jlookup,
            asStr, asInt, asArr, asBool, parseDT, jtruthy, tsne,
            hexis_ok_bind, hexis_map_ok, hexis_emap_ok, hexis_pure_ok]
      | some s =>
          simp [ConsentCertificate.from_dict, ConsentCertificate.to_dict,
            ModelInfo.from_dict, ModelInfo.to_dict, asObj, reqField, jlookup,
            asStr, asInt, asArr, asBool, parseDT, jtruthy, tsne,
            hexis_ok_bind, hexis_map_ok, hexis_emap_ok, hexis_pure_ok]
  | some rd =>
      obtain ⟨rdi, rdne⟩ := rd
      cases rr with
      | none =>
          simp [ConsentCertificate.from_dict, ConsentCertificate.to_dict,
            ModelInfo.from_dict, ModelInfo.to_dict, asObj, reqField, jlookup,
            asStr, asInt, asArr, asBool, parseDT, jtruthy, tsne, rdne,
            hexis_ok_bind, hexis_map_ok, hexis_emap_ok, hexis_pure_ok]
      | some s =>
          simp [ConsentCertificate.from_dict, ConsentCertificate.to_dict,
            ModelInfo.from_dict, ModelInfo.to_dict, asObj, reqField, jlookup,
            asStr, asInt, asArr, asBool, parseDT, jtruthy, tsne, rdne,
            hexis_ok_bind, hexis_map_ok, hexis_emap_ok, hexis_pure_ok]

/-- C5 counterexample: with `retry=true` and `retry_count = max_retries` the
call is marked `failed`, yet `retry_count` IS incremented (the claim asserts
it is not incremented in that branch). -/
theorem C5_counterexample :
    (fail_call "2024-01-01T00:00:00+00:00"
        ⟨CallStatus.processing, 3, some "2024-01-01T00:00:00+00:00", none, none⟩
        "boom" 3 true).status = CallStatus.failed ∧
    (fail_call "2024-01-01T00:00:00+00:00"
        ⟨CallStatus.processing, 3, some "2024-01-01T00:00:00+00:00", none, none⟩
        "boom" 3 true).retry_count = 3 + 1 := by
  constructor <;> rfl

/-- C5 (amended): with `retry=true` and `retry_count < max_retries` the call
returns to `pending` with `retry_count` incremented, `started_at` cleared and
`error_message` set; with `retry=true` and `retry_count ≥ max_retries` it is
marked `failed` with `error_message` set but `retry_count` is STILL
incremented (and `started_at` still cleared); only with `retry=false` is the
call marked `failed` without touching `retry_count` (stamping `completed_at`
instead). -/
theorem C5_fail_call_amended (now : String) (c : ExternalCall) (error : String)
    (max_retries : Nat) (retry : Bool) :
    (retry = true → c.retry_count < max_retries →
       (fail_call now c error max_retries retry).status = CallStatus.pending ∧
       (fail_call now c error max_retries retry).retry_count = c.retry_count + 1 ∧
       (fail_call now c error max_retries retry).started_at = none ∧
       (fail_call now c error max_retries retry).error_message = some error) ∧
    (retry = true → ¬c.retry_count < max_retries →
       (fail_call now c error max_retries retry).status = CallStatus.failed ∧
       (fail_call now c error max_retries retry).error_message = some error ∧
       (fail_call now c error max_retries retry).retry_count = c.retry_count + 1 ∧
       (fail_call now c error max_retries retry).started_at = none) ∧
    (retry = false →
       (fail_call now c error max_retries retry).status = CallStatus.failed ∧
       (fail_call now c error max_retries retry).error_message = some error ∧
       (fail_call now c error max_retries retry).retry_count = c.retry_count ∧
       (fail_call now c error max_retries retry).completed_at = some now) := by
  refine ⟨fun hr hlt => ?_, fun hr hge => ?_, fun hr => ?_⟩ <;>
    subst hr <;> simp_all [fail_call]

/-- C5 witness: the amended theorem applied at a concrete retryable call. -/
theorem C5_witness :
    (fail_call "2024-01-01T00:00:00+00:00"
        ⟨CallStatus.processing, 1, some "2024-01-01T00:00:00+00:00", none, none⟩
        "boom" 3 true).status = CallStatus.pending ∧
    (fail_call "2024-01-01T00:00:00+00:00"
        ⟨CallStatus.processing, 1, some "2024-01-01T00:00:00+00:00", none, none⟩
        "boom" 3 true).retry_count = 1 + 1 :=
  ⟨((C5_fail_call_amended "2024-01-01T00:00:00+00:00"
      ⟨CallStatus.processing, 1, some "2024-01-01T00:00:00+00:00", none, none⟩
      "boom" 3 true).1 rfl (by decide)).1,
   ((C5_fail_call_amended "2024-01-01T00:00:00+00:00"
      ⟨CallStatus.processing, 1, some "2024-01-01T00:00:00+00:00", none, none⟩
      "boom" 3 true).1 rfl (by decide)).2.1⟩

/-- C9: when the execution context has no `workspace_path`,
`is_path_allowed` is constantly true and the `read_file` gate can never
produce a `path_not_allowed` denial; the workspace restriction exists only
when `workspace_path` is configured. -/
theorem C9_no_workspace_means_no_path_restriction (os : OsPathModel)
    (ctx : ToolExecutionContext) (p : String)
    (hw : ctx.workspace_path = none) :
    is_path_allowed os ctx p = true ∧
    read_file_gate os ctx p ≠ ReadFileGate.deniedPath := by
  have hall : ∀ q, is_path_allowed os ctx q = true := by
    intro q
    simp [is_path_allowed, hw]
  refine ⟨hall p, ?_⟩
  by_cases hr : ctx.allow_file_read <;>
    simp [read_file_gate, hr, hall]

/-- C9 witness: the theorem at a concrete unrestricted context and an
absolute host path. -/
theorem C9_witness :
    is_path_allowed
      ⟨fun s => s, fun a b => a ++ "/" ++ b, fun s => s.startsWith "/"⟩
      { tool_context := ToolContextK.heartbeat, call_id := "c-1" }
      "/etc/passwd" = true ∧
    read_file_gate
      ⟨fun s => s, fun a b => a ++ "/" ++ b, fun s => s.startsWith "/"⟩
      { tool_context := ToolContextK.heartbeat, call_id := "c-1" }
      "/etc/passwd" ≠ ReadFileGate.deniedPath :=
  C9_no_workspace_means_no_path_restriction
    ⟨fun s => s, fun a b => a ++ "/" ++ b, fun s => s.startsWith "/"⟩
    { tool_context := ToolContextK.heartbeat, call_id := "c-1" }
    "/etc/passwd" rfl

/-- C2: evaluation at the failing input.  A non-terminated instance whose
configured model has no consent certificate on disk: consent is invalid
(`has_valid_consent` is `false` on the empty consents directory), yet the
heartbeat worker's loop gate proceeds to service heartbeats — the loop body
of `HeartbeatWorker.run` consults only `is_agent_terminated()` and exits the
loop on no other condition. -/
theorem C2_worker_runs_without_consent :
    heartbeatWorkerLoopStep false = WorkerStep.runHeartbeatIfDue ∧
    has_valid_consent (fun _ => none) ⟨[]⟩ "anthropic" "claude-3-opus" =
      .ok false := by
  constructor <;> rfl

theorem bumpCount_sum (m : List (String × Nat)) (k : String) :
    sumCounts (bumpCount m k) = sumCounts m + 1 := by
  induction m with
  | nil => simp [bumpCount, sumCounts]
  | cons e rest ih =>
      by_cases h : e.1 = k <;>
        simp [bumpCount, h, sumCounts, List.map_cons, List.sum_cons] at * <;>
        omega

theorem record_preserves_statsInvariant (s : ExecutionStats) (n : String)
    (r : ToolResult) (h : statsInvariant s) : statsInvariant (s.record n r) := by
  obtain ⟨h1, h2⟩ := h
  by_cases hs : r.success <;>
    simp [ExecutionStats.record, statsInvariant, hs, bumpCount_sum, h1, h2] <;>
    omega

/-- C10: after any sequence of `ExecutionStats.record` calls starting from
the fresh stats (and `ToolRegistry.execute` records exactly once per call),
`total_calls = total_successes + total_failures` and the values of
`calls_by_tool` sum to `total_calls`. -/
theorem C10_stats_invariant (recs : List (String × ToolResult)) :
    statsInvariant (recs.foldl (fun s e => s.record e.1 e.2) {}) := by
  have aux : ∀ (l : List (String × ToolResult)) (s : ExecutionStats),
      statsInvariant s → statsInvariant (l.foldl (fun s e => s.record e.1 e.2) s) := by
    intro l
    induction l with
    | nil => intro s hs; exact hs
    | cons e rest ih =>
        intro s hs
        exact ih _ (record_preserves_statsInvariant s e.1 e.2 hs)
  exact aux recs {} ⟨rfl, rfl⟩

theorem braceRescue_fallback (loads : String → Option Json) (raw : String)
    (fallback : Json)
    (h : ∀ s fs, extractBraces raw = some s → loads s ≠ some (Json.obj fs)) :
    braceRescue loads raw fallback = fallback := by
  unfold braceRescue
  cases he : extractBraces raw with
  | none => rfl
  | some s =>
      cases hs : loads s with
      | none => simp [hs]
      | some j =>
          cases j
          case obj fs => exact absurd hs (h s fs he)
          all_goals simp [hs]

/-- C7: whenever the LLM response for a `heartbeat_decision` think call
cannot be parsed into a JSON object — it is empty, or neither the whole
response nor its braced substring parses to an object — the processor
returns exactly the declared fallback decision
(reasoning `"(no decision available)"`, a single `rest` action, and empty
`goal_changes`) instead of raising. -/
theorem C7_heartbeat_decision_parse_fallback (loads : String → Option Json)
    (raw : String) (hb : Option String)
    (h : raw = "" ∨
         ((∀ fs, loads raw ≠ some (Json.obj fs)) ∧
          (∀ s fs, extractBraces raw = some s → loads s ≠ some (Json.obj fs)))) :
    (process_heartbeat_decision_call loads raw hb).decision =
      heartbeatDecisionFallback := by
  unfold process_heartbeat_decision_call parse_json_response
  rcases h with h | ⟨h1, h2⟩
  · simp [h]
  · by_cases hr : raw = ""
    · simp [hr]
    · rw [if_neg hr]
      cases hl : loads raw with
      | none => exact braceRescue_fallback loads raw _ h2
      | some j =>
          cases j with
          | obj fs => exact absurd hl (h1 fs)
          | null => exact braceRescue_fallback loads raw _ h2
          | bool b => exact braceRescue_fallback loads raw _ h2
          | num n => exact braceRescue_fallback loads raw _ h2
          | str t => exact braceRescue_fallback loads raw _ h2
          | arr xs => exact braceRescue_fallback loads raw _ h2

/-- C7 witness: a malformed response (no parse at all) yields the exact
fallback decision. -/
theorem C7_witness :
    (process_heartbeat_decision_call (fun _ => none) "not json at all"
        (some "hb-1")).decision = heartbeatDecisionFallback :=
  C7_heartbeat_decision_parse_fallback (fun _ => none) "not json at all"
    (some "hb-1")
    (Or.inr ⟨(fun _ h => nomatch h), (fun _ _ _ h' => nomatch h')⟩)

/-- C1: `delete_instance` with default arguments (`require_permission=true`,
`force=false`) drops the substrate and removes the registry entry only when
the store already reports terminated-or-unconfigured or the termination
review confirmed; a review with `confirm=false` — including the fallback
review built when the review call fails — raises `AgentDeletionRefused`
carrying that review, and `drop_database` is never invoked. -/
theorem C1_delete_instance_gate (found : Bool) (st : StoreGate)
    (reviewCall : Except String TerminationReview) (reason : String) :
    ((delete_instance found st reviewCall false true reason).dropDatabaseCalled = true ∨
     (delete_instance found st reviewCall false true reason).registryRemoveCalled = true →
       st.terminated = true ∨ st.configured = false ∨
       ∃ rv, reviewCall = .ok rv ∧ rv.confirm = true) ∧
    (∀ rv, reviewCall = .ok rv → rv.confirm = false →
       st.terminated = false → st.configured = true → found = true →
       (delete_instance found st reviewCall false true reason).outcome =
           .error (.agentDeletionRefused rv) ∧
       (delete_instance found st reviewCall false true reason).dropDatabaseCalled = false) ∧
    (∀ e, reviewCall = .error e →
       st.terminated = false → st.configured = true → found = true →
       (delete_instance found st reviewCall false true reason).outcome =
           .error (.agentDeletionRefused (fallbackReview e reason)) ∧
       (fallbackReview e reason).confirm = false ∧
       (delete_instance found st reviewCall false true reason).dropDatabaseCalled = false) := by
  obtain ⟨term, conf⟩ := st
  refine ⟨?_, ?_, ?_⟩
  · intro hdrop
    cases found with
    | false => simp [delete_instance] at hdrop
    | true =>
        cases term with
        | true => exact Or.inl rfl
        | false =>
            cases conf with
            | false => exact Or.inr (Or.inl rfl)
            | true =>
                cases reviewCall with
                | error e => simp [delete_instance] at hdrop
                | ok rv =>
                    cases hc : rv.confirm with
                    | true => exact Or.inr (Or.inr ⟨rv, rfl, hc⟩)
                    | false => simp [delete_instance, hc] at hdrop
  · intro rv hok hc hterm hconf hfound
    subst hok hterm hconf hfound
    simp [delete_instance, hc]
  · intro e herr hterm hconf hfound
    subst herr hterm hconf hfound
    refine ⟨?_, rfl, ?_⟩ <;> simp [delete_instance]

/-- C1 witness: a configured, non-terminated instance whose review declines:
deletion is refused with the review attached and the database is not
dropped. -/
theorem C1_witness :
    (delete_instance true ⟨false, true⟩
        (.ok ⟨false, "I object to deletion", "", [], [], ""⟩)
        false true "cleanup").outcome =
      .error (.agentDeletionRefused ⟨false, "I object to deletion", "", [], [], ""⟩) ∧
    (delete_instance true ⟨false, true⟩
        (.ok ⟨false, "I object to deletion", "", [], [], ""⟩)
        false true "cleanup").dropDatabaseCalled = false :=
  (C1_delete_instance_gate true ⟨false, true⟩
      (.ok ⟨false, "I object to deletion", "", [], [], ""⟩) "cleanup").2.1
    ⟨false, "I object to deletion", "", [], [], ""⟩ rfl rfl rfl rfl rfl

/-- C4 (amended): when an active worldview boundary memory restricts the
tool (by name or by its category), the restricting boundary rows carry a
non-empty (truthy) content — `_check_boundaries` guards each denial with
`if boundary:` — and the earlier pipeline stages pass, `registry.execute`
returns an unsuccessful result typed `boundary_violation` whose reason
carries the boundary text, with zero energy spent, and the handler body is
never executed. -/
theorem C4_boundary_blocks_execution (r : ToolRegistry) (db : List MemoryRow)
    (approvals : List String) (cfg : ToolsConfig) (name : String) (args : Json)
    (ctx : ToolExecutionContext) (h : ToolHandler)
    (hget : r.get name = some h)
    (henab : cfg.is_tool_enabled_for_context h.spec.name h.spec.category
               ctx.tool_context = true)
    (hctx : h.spec.allowed_contexts.contains ctx.tool_context = true)
    (henergy : ctx.tool_context = ToolContextK.heartbeat →
               check_energy h.spec cfg ctx.energy_available = .allow)
    (hb : ∃ m ∈ db, boundaryRowForTool m h.spec.name = true ∨
                    boundaryRowForCategory m h.spec.category = true)
    (hcontent : ∀ m ∈ db,
        boundaryRowForTool m h.spec.name = true ∨
        boundaryRowForCategory m h.spec.category = true → m.content ≠ "") :
    (r.execute db approvals cfg name args ctx).result.success = false ∧
    (r.execute db approvals cfg name args ctx).result.error_type =
        some ToolErrorType.boundary_violation ∧
    (r.execute db approvals cfg name args ctx).result.energy_spent = 0 ∧
    (r.execute db approvals cfg name args ctx).handlerRan = false ∧
    (∃ m ∈ db,
       (boundaryRowForTool m h.spec.name = true ∧
        (r.execute db approvals cfg name args ctx).result.error =
          some ("Boundary restriction: " ++ m.content)) ∨
       (boundaryRowForCategory m h.spec.category = true ∧
        (r.execute db approvals cfg name args ctx).result.error =
          some ("Boundary restriction on category '" ++ h.spec.category
                ++ "': " ++ m.content))) := by
  have henergy' : (if ctx.tool_context = ToolContextK.heartbeat
      then check_energy h.spec cfg ctx.energy_available
      else PolicyCheckResult.allow) = PolicyCheckResult.allow := by
    by_cases hh : ctx.tool_context = ToolContextK.heartbeat
    · simpa [hh] using henergy hh
    · simp [hh]
  have hctx' : ctx.tool_context ∈ h.spec.allowed_contexts := by
    simpa using hctx
  have hbound : ∃ m ∈ db,
      (boundaryRowForTool m h.spec.name = true ∧
       check_boundaries db h.spec =
         .deny ("Boundary restriction: " ++ m.content) .boundary_violation) ∨
      (boundaryRowForCategory m h.spec.category = true ∧
       check_boundaries db h.spec =
         .deny ("Boundary restriction on category '" ++ h.spec.category
                ++ "': " ++ m.content) .boundary_violation) := by
    cases hfind : db.find? (fun m => boundaryRowForTool m h.spec.name) with
    | some m0 =>
        have hm0 : m0 ∈ db := List.mem_of_find?_eq_some hfind
        have hp0 : boundaryRowForTool m0 h.spec.name = true := by
          simpa using List.find?_some hfind
        have hc0 : m0.content ≠ "" := hcontent m0 hm0 (Or.inl hp0)
        refine ⟨m0, hm0, Or.inl ⟨hp0, ?_⟩⟩
        simp [check_boundaries, hfind, hc0]
    | none =>
        have hnone : ∀ m ∈ db, ¬boundaryRowForTool m h.spec.name = true := by
          intro m hm
          exact List.find?_eq_none.mp hfind m hm
        obtain ⟨m, hm, hcase⟩ := hb
        have hcat : boundaryRowForCategory m h.spec.category = true := by
          cases hcase with
          | inl hx => exact absurd hx (hnone m hm)
          | inr hx => exact hx
        cases hfind2 : db.find? (fun m => boundaryRowForCategory m h.spec.category) with
        | some m1 =>
            have hm1 : m1 ∈ db := List.mem_of_find?_eq_some hfind2
            have hp1 : boundaryRowForCategory m1 h.spec.category = true := by
              simpa using List.find?_some hfind2
            have hc1 : m1.content ≠ "" := hcontent m1 hm1 (Or.inr hp1)
            refine ⟨m1, hm1, Or.inr ⟨hp1, ?_⟩⟩
            simp [check_boundaries, check_boundaries_category, hfind, hfind2,
              hc1]
        | none =>
            exact absurd hcat (List.find?_eq_none.mp hfind2 m hm)
  obtain ⟨m, hm, hcase⟩ := hbound
  rcases hcase with ⟨hx, hcb⟩ | ⟨hx, hcb⟩
  · have hres : (r.execute db approvals cfg name args ctx).result =
        ToolResult.error_result ("Boundary restriction: " ++ m.content)
          .boundary_violation := by
      simp [ToolRegistry.execute, hget, check_all, check_enabled, henab,
        check_context, hctx', henergy', hcb]
    have hran : (r.execute db approvals cfg name args ctx).handlerRan = false := by
      simp [ToolRegistry.execute, hget, check_all, check_enabled, henab,
        check_context, hctx', henergy', hcb]
    exact ⟨by simp [hres, ToolResult.error_result],
           by simp [hres, ToolResult.error_result],
           by simp [hres, ToolResult.error_result],
           hran,
           ⟨m, hm, Or.inl ⟨hx, by simp [hres, ToolResult.error_result]⟩⟩⟩
  · have hres : (r.execute db approvals cfg name args ctx).result =
        ToolResult.error_result ("Boundary restriction on category '"
            ++ h.spec.category ++ "': " ++ m.content) .boundary_violation := by
      simp [ToolRegistry.execute, hget, check_all, check_enabled, henab,
        check_context, hctx', henergy', hcb]
    have hran : (r.execute db approvals cfg name args ctx).handlerRan = false := by
      simp [ToolRegistry.execute, hget, check_all, check_enabled, henab,
        check_context, hctx', henergy', hcb]
    exact ⟨by simp [hres, ToolResult.error_result],
           by simp [hres, ToolResult.error_result],
           by simp [hres, ToolResult.error_result],
           hran,
           ⟨m, hm, Or.inr ⟨hx, by simp [hres, ToolResult.error_result]⟩⟩⟩

/-- C4 counterexample: an active worldview boundary memory that names
`shell` in `restricts_tools` but whose content is the empty string does NOT
block execution — `if boundary:` is falsy, so the pipeline falls through and
the handler runs successfully, with no `boundary_violation`. -/
theorem C4_counterexample :
    boundaryRowForTool demoEmptyBoundaryRow "shell" = true ∧
    (ToolRegistry.execute demoShellRegistry [demoEmptyBoundaryRow] ["shell"]
        {} "shell" (Json.obj []) demoHeartbeatCtx).handlerRan = true ∧
    (ToolRegistry.execute demoShellRegistry [demoEmptyBoundaryRow] ["shell"]
        {} "shell" (Json.obj []) demoHeartbeatCtx).result.success = true ∧
    (ToolRegistry.execute demoShellRegistry [demoEmptyBoundaryRow] ["shell"]
        {} "shell" (Json.obj []) demoHeartbeatCtx).result.error_type ≠
      some ToolErrorType.boundary_violation := by
  refine ⟨rfl, rfl, rfl, ?_⟩
  have e : (ToolRegistry.execute demoShellRegistry [demoEmptyBoundaryRow]
      ["shell"] {} "shell" (Json.obj []) demoHeartbeatCtx).result.error_type =
      none := rfl
  rw [e]
  exact fun hx => Option.noConfusion hx

/-- C4 witness: a `shell` call against a database holding one active boundary
memory with non-empty content restricting `shell` is denied as a boundary
violation with no energy spent and no handler execution. -/
theorem C4_witness :
    (ToolRegistry.execute demoShellRegistry [demoBoundaryRow] ["shell"] {}
        "shell" (Json.obj []) demoHeartbeatCtx).result.success = false ∧
    (ToolRegistry.execute demoShellRegistry [demoBoundaryRow] ["shell"] {}
        "shell" (Json.obj []) demoHeartbeatCtx).result.error_type =
      some ToolErrorType.boundary_violation ∧
    (ToolRegistry.execute demoShellRegistry [demoBoundaryRow] ["shell"] {}
        "shell" (Json.obj []) demoHeartbeatCtx).result.energy_spent = 0 ∧
    (ToolRegistry.execute demoShellRegistry [demoBoundaryRow] ["shell"] {}
        "shell" (Json.obj []) demoHeartbeatCtx).handlerRan = false := by
  have h := C4_boundary_blocks_execution demoShellRegistry [demoBoundaryRow]
    ["shell"] {} "shell" (Json.obj []) demoHeartbeatCtx demoShellHandler
    rfl rfl rfl (fun _ => rfl)
    ⟨demoBoundaryRow, by simp, Or.inl rfl⟩
    (by
      intro m hm _
      rw [List.mem_singleton] at hm
      subst hm
      decide)
  exact ⟨h.1, h.2.1, h.2.2.1, h.2.2.2.1⟩

theorem charListLe_refl : ∀ as : List Char, charListLe as as = true := by
  intro as
  induction as with
  | nil => rfl
  | cons a rest ih => simp [charListLe, lt_irrefl, ih]

theorem charListLe_total : ∀ as bs : List Char,
    charListLe as bs = true ∨ charListLe bs as = true := by
  intro as
  induction as with
  | nil => intro bs; exact Or.inl rfl
  | cons a rest ih =>
      intro bs
      cases bs with
      | nil => exact Or.inr rfl
      | cons b bs =>
          rcases lt_trichotomy a b with h | h | h
          · exact Or.inl (by simp [charListLe, h])
          · subst h
            rcases ih bs with h2 | h2
            · exact Or.inl (by simp [charListLe, lt_irrefl, h2])
            · exact Or.inr (by simp [charListLe, lt_irrefl, h2])
          · exact Or.inr (by simp [charListLe, h])

theorem charListLe_trans : ∀ as bs cs : List Char,
    charListLe as bs = true → charListLe bs cs = true →
    charListLe as cs = true := by
  intro as
  induction as with
  | nil => intro bs cs _ _; rfl
  | cons a rest ih =>
      intro bs cs h1 h2
      cases bs with
      | nil => simp [charListLe] at h1
      | cons b bs =>
          cases cs with
          | nil => simp [charListLe] at h2
          | cons c cs =>
              rcases lt_trichotomy a b with hab | hab | hab
              · rcases lt_trichotomy b c with hbc | hbc | hbc
                · simp [charListLe, lt_trans hab hbc]
                · subst hbc
                  simp [charListLe, hab]
                · simp [charListLe, hbc, lt_asymm hbc] at h2
              · subst hab
                rcases lt_trichotomy a c with hac | hac | hac
                · simp [charListLe, hac]
                · subst hac
                  simp [charListLe, lt_irrefl] at h1 h2 ⊢
                  exact ih bs cs h1 h2
                · simp [charListLe, hac, lt_asymm hac] at h2
              · simp [charListLe, hab, lt_asymm hab] at h1

/-- C3: `has_valid_consent(p, m)` answers true exactly when the
lexicographically latest `"{p}--{m}--*.json"` file exists, parses to a
certificate, and that certificate has `decision="accept"` and
`revoked=false`; the latest file is maximal among all matching files, and the
answer is a function of that latest file alone (earlier certificates are
irrelevant). -/
theorem C3_has_valid_consent_latest_only (loads : String → Option Json)
    (store : ConsentStore) (provider model_id : String) :
    (has_valid_consent loads store provider model_id = .ok true ↔
      ∃ name text,
        find_latest_certificate store provider model_id = some (name, text) ∧
        ∃ j c, loads text = some j ∧
          ConsentCertificate.from_dict j = .ok c ∧
          c.decision = "accept" ∧ c.revoked = false) ∧
    (∀ nt, find_latest_certificate store provider model_id = some nt →
        nt ∈ matchingCerts store provider model_id ∧
        ∀ nt' ∈ matchingCerts store provider model_id, strLe nt'.1 nt.1 = true) ∧
    (∀ store' : ConsentStore,
        find_latest_certificate store provider model_id =
          find_latest_certificate store' provider model_id →
        has_valid_consent loads store provider model_id =
          has_valid_consent loads store' provider model_id) := by
  refine ⟨?_, ?_, ?_⟩
  · cases hfl : find_latest_certificate store provider model_id with
    | none => simp [has_valid_consent, get_consent, hfl]
    | some nt =>
        obtain ⟨nm, tx⟩ := nt
        cases hld : loads tx with
        | none => simp [has_valid_consent, get_consent, hfl, hld]
        | some j =>
            cases hfd : ConsentCertificate.from_dict j with
            | error e => simp [has_valid_consent, get_consent, hfl, hld, hfd]
            | ok c =>
                simp only [has_valid_consent, get_consent, hfl, hld, hfd]
                constructor
                · intro hv
                  have hvalid : c.is_valid = true := by
                    simpa using hv
                  refine ⟨nm, tx, rfl, j, c, hld, hfd, ?_⟩
                  simpa [ConsentCertificate.is_valid, Bool.and_eq_true,
                    Bool.not_eq_true'] using hvalid
                · rintro ⟨nm', tx', heq, j', c', hld', hfd', hdec, hrev⟩
                  injection heq with heq'
                  injection heq' with ha hb
                  subst ha
                  subst hb
                  rw [hld] at hld'
                  injection hld' with hj
                  subst hj
                  rw [hfd] at hfd'
                  injection hfd' with hc
                  subst hc
                  simp [ConsentCertificate.is_valid, hdec, hrev]
  · intro nt hnt
    haveI htot : IsTotal (String × String) (fun a b => strLe b.1 a.1 = true) :=
      ⟨fun a b => charListLe_total b.1.toList a.1.toList⟩
    haveI htr : IsTrans (String × String) (fun a b => strLe b.1 a.1 = true) :=
      ⟨fun _ _ _ hab hbc => charListLe_trans _ _ _ hbc hab⟩
    have hsort := List.sorted_insertionSort
      (fun a b : String × String => strLe b.1 a.1 = true)
      (matchingCerts store provider model_id)
    unfold find_latest_certificate at hnt
    cases hs : (matchingCerts store provider model_id).insertionSort
        (fun a b => strLe b.1 a.1 = true) with
    | nil => rw [hs] at hnt; simp at hnt
    | cons hd tl =>
        rw [hs] at hnt
        have hhd : hd = nt := by simpa using hnt
        constructor
        · refine (List.mem_insertionSort
            (fun a b : String × String => strLe b.1 a.1 = true)).mp ?_
          rw [hs, ← hhd]
          exact List.mem_cons_self hd tl
        · intro nt' hnt'
          have hmem : nt' ∈ hd :: tl := by
            rw [← hs]
            exact (List.mem_insertionSort
              (fun a b : String × String => strLe b.1 a.1 = true)).mpr hnt'
          rw [hs] at hsort
          rcases List.mem_cons.mp hmem with heq2 | htl
          · rw [heq2, hhd]
            exact charListLe_refl _
          · have h2 := List.rel_of_sorted_cons hsort nt' htl
            rw [← hhd]
            exact h2
  · intro store' heq
    simp only [has_valid_consent, get_consent, heq]

/-- C3 witness: the theorem's locality part applied to two concrete stores
sharing the same (accepted) latest certificate, one of which also holds an
earlier declined certificate; consent is valid in both. -/
theorem C3_witness :
    has_valid_consent demoLoads demoStoreWithEarlier "anthropic"
        "claude-3-opus" =
      has_valid_consent demoLoads demoStoreLatestOnly "anthropic"
        "claude-3-opus" ∧
    has_valid_consent demoLoads demoStoreWithEarlier "anthropic"
        "claude-3-opus" = .ok true := by
  have h := (C3_has_valid_consent_latest_only demoLoads demoStoreWithEarlier
      "anthropic" "claude-3-opus").2.2 demoStoreLatestOnly (by rfl)
  exact ⟨h, h.trans (by rfl)⟩

/-- C6 counterexample: two non-parallel-safe calls of a cost-3 tool with a
shared `energy_available` of 5.  Under the claim's semantics (modelled by
`execute_batch_par_specC6`, which decrements the shared energy between
sequential calls) the second call must fail with insufficient energy; the
code's `execute_batch` instead runs both calls against the unchanged
snapshot, so the results differ. -/
theorem C6_counterexample :
    ToolRegistry.execute_batch demoMsgRegistry [] [] {} demoBatchCalls
        demoBatchCtx true demoCallIds ≠
      execute_batch_par_specC6 demoMsgRegistry [] [] {} demoBatchCalls
        demoBatchCtx demoCallIds := by
  intro h
  have e1 : (ToolRegistry.execute_batch demoMsgRegistry [] [] {}
      demoBatchCalls demoBatchCtx true demoCallIds).map
        (fun t => t.success) = [true, true] := by rfl
  have e2 : (execute_batch_par_specC6 demoMsgRegistry [] [] {} demoBatchCalls
      demoBatchCtx demoCallIds).map (fun t => t.success) = [true, false] := by
    rfl
  have h2 : ([true, true] : List Bool) = [true, false] :=
    (e1.symm.trans
      (congrArg (fun l => l.map (fun t => t.success)) h)).trans e2
  simp at h2

theorem insertionSort_enum_partition_map {α β : Type} (l : List α)
    (p : Nat × α → Bool) (g : Nat × α → β) :
    ((((l.enum.filter p).map (fun c => (c.1, g c))) ++
        ((l.enum.filter (fun c => !p c)).map (fun c => (c.1, g c)))).insertionSort
      (fun a b : Nat × β => a.1 ≤ b.1)).map (·.2) = l.enum.map g := by
  haveI htot : IsTotal (Nat × β) (fun a b => a.1 ≤ b.1) :=
    ⟨fun a b => Nat.le_total a.1 b.1⟩
  haveI htr : IsTrans (Nat × β) (fun a b => a.1 ≤ b.1) :=
    ⟨fun _ _ _ h1 h2 => Nat.le_trans h1 h2⟩
  haveI hanti : IsAntisymm (Nat × β) (fun a b : Nat × β => a.1 < b.1) :=
    ⟨fun _ _ h1 h2 => absurd h2 (Nat.lt_asymm h1)⟩
  have hkeys : l.enum.Pairwise (fun a b => a.1 < b.1) := by
    have h1 : (l.enum.map Prod.fst).Pairwise (· < ·) := by
      rw [List.enum_map_fst]
      exact List.pairwise_lt_range _
    exact List.pairwise_map.mp h1
  have htargetLT :
      (l.enum.map (fun c => (c.1, g c))).Pairwise
        (fun a b : Nat × β => a.1 < b.1) :=
    List.pairwise_map.mpr hkeys
  have hall :
      (((l.enum.filter p).map (fun c => (c.1, g c))) ++
        ((l.enum.filter (fun c => !p c)).map (fun c => (c.1, g c)))) =
      ((l.enum.filter p ++ l.enum.filter (fun c => !p c)).map
        (fun c => (c.1, g c))) :=
    (List.map_append _ _ _).symm
  have hperm : List.Perm
      (l.enum.filter p ++ l.enum.filter (fun c => !p c)) l.enum :=
    List.filter_append_perm p l.enum
  have hsperm : List.Perm
      ((((l.enum.filter p).map (fun c => (c.1, g c))) ++
        ((l.enum.filter (fun c => !p c)).map (fun c => (c.1, g c)))).insertionSort
        (fun a b : Nat × β => a.1 ≤ b.1))
      (l.enum.map (fun c => (c.1, g c))) := by
    refine (List.perm_insertionSort _ _).trans ?_
    rw [hall]
    exact hperm.map _
  have hsorted := List.sorted_insertionSort (fun a b : Nat × β => a.1 ≤ b.1)
    ((((l.enum.filter p).map (fun c => (c.1, g c))) ++
      ((l.enum.filter (fun c => !p c)).map (fun c => (c.1, g c)))))
  have hne :
      ((((l.enum.filter p).map (fun c => (c.1, g c))) ++
        ((l.enum.filter (fun c => !p c)).map (fun c => (c.1, g c)))).insertionSort
        (fun a b : Nat × β => a.1 ≤ b.1)).Pairwise
        (fun a b : Nat × β => a.1 ≠ b.1) := by
    exact (hsperm.pairwise_iff (fun h => Ne.symm h)).mpr
      (htargetLT.imp (fun h => Nat.ne_of_lt h))
  have hsLT :
      ((((l.enum.filter p).map (fun c => (c.1, g c))) ++
        ((l.enum.filter (fun c => !p c)).map (fun c => (c.1, g c)))).insertionSort
        (fun a b : Nat × β => a.1 ≤ b.1)).Pairwise
        (fun a b : Nat × β => a.1 < b.1) :=
    (hsorted.and hne).imp (fun h => Nat.lt_of_le_of_ne h.1 h.2)
  have heq := List.eq_of_perm_of_sorted hsperm hsLT htargetLT
  rw [heq, List.map_map]
  rfl

/-- C6 (amended): with `parallel=true`, `execute_batch` partitions into
parallel-safe and sequential calls, gives every call a fresh `call_id`, and
returns the results re-sorted into the input order — but every call,
parallel-safe or sequential, sees the same starting `energy_available`
snapshot: the shared energy is never decremented between sequential calls in
this path (that happens only in the `parallel=false` branch). -/
theorem C6_execute_batch_parallel_results (r : ToolRegistry)
    (db : List MemoryRow) (approvals : List String) (cfg : ToolsConfig)
    (calls : List (String × Json)) (ctx : ToolExecutionContext)
    (callIds : Nat → String) :
    r.execute_batch db approvals cfg calls ctx true callIds =
      calls.enum.map (fun c =>
        (r.execute db approvals cfg c.2.1 c.2.2
          (batchCtx ctx (callIds c.1))).result) := by
  show execute_batch_par r db approvals cfg calls ctx callIds = _
  unfold execute_batch_par
  exact insertionSort_enum_partition_map calls (parallelSafe r)
    (fun c => (r.execute db approvals cfg c.2.1 c.2.2
      (batchCtx ctx (callIds c.1))).result)

end Hexis
